import Mathlib

/-!
Verification of the chess agent's session/orchestration layer
(`agents/chess_agent.py`).

The agent code is embedded shallowly:

* Chess rules (the `python-chess` library: `Board`, `parse_san`, `push`,
  `legal_moves`, `is_game_over`, `san`, `fen`, `Move.from_uci`) are an
  external capability, so they are abstracted as a `RulesEngine` record,
  exactly the operations the agent calls.
* The external engine subprocess is abstracted as an `EngineBehavior`:
  it can fail to spawn (`FileNotFoundError`), raise some other error,
  hang forever, or run and answer each stdin payload with an stdout
  payload.  A result of `none` for a whole call means the call never
  returns (the hung-process case: `process.communicate` is awaited
  without any timeout in the source).
* Python exceptions raised out of `process_messages` become an
  `Except TurnError` result; the mutable `self.boards` dict becomes an
  explicit `Store` threaded through and returned.
* `str.split` / `str.strip` / `str.startswith` / `"".join` are modelled
  over `List Char` with structural recursion so that concrete runs
  reduce in the kernel.
-/

/-- Python whitespace characters (the set used by `str.strip` and
`str.split` with no argument): space, tab, newline, carriage return,
vertical tab, form feed. -/
def pyIsSpace (c : Char) : Bool :=
  c == ' ' || c == '\t' || c == '\n' || c == '\r' ||
  c == Char.ofNat 11 || c == Char.ofNat 12

/-- `str.strip()`: drop leading and trailing whitespace. -/
def pyStrip (s : String) : String :=
  String.mk (((s.data.dropWhile pyIsSpace).reverse.dropWhile pyIsSpace).reverse)

/-- Split a character list at every occurrence of `sep`
(Python `str.split(sep)` for a one-character separator; keeps empties). -/
def splitOnChar (sep : Char) : List Char → List (List Char)
  | [] => [[]]
  | c :: cs =>
    let rest := splitOnChar sep cs
    if c == sep then [] :: rest
    else
      match rest with
      | [] => [[c]]
      | r :: rs => (c :: r) :: rs

/-- `output.split("\n")` as used on the engine's stdout. -/
def pyLines (s : String) : List String :=
  (splitOnChar '\n' s.data).map String.mk

/-- Helper for `str.split()` with no argument: accumulate maximal runs of
non-whitespace characters, dropping all whitespace. -/
def wsTokensAux (cur : List Char) : List Char → List (List Char)
  | [] => if cur.isEmpty then [] else [cur.reverse]
  | c :: cs =>
    if pyIsSpace c then
      if cur.isEmpty then wsTokensAux [] cs
      else cur.reverse :: wsTokensAux [] cs
    else wsTokensAux (c :: cur) cs

/-- Python `line.split()`: whitespace-separated tokens, no empties. -/
def pySplit (s : String) : List String :=
  (wsTokensAux [] s.data).map String.mk

/-- Python `s.startswith(pre)`. -/
def pyStartsWith (s pre : String) : Bool :=
  pre.data.isPrefixOf s.data

/-- Python `s.endswith(suf)`. -/
def pyEndsWith (s suf : String) : Bool :=
  suf.data.isSuffixOf s.data

/-- One part of an A2A message (`models.a2a.MessagePart`): a `kind`
discriminator plus the `text` and `file_url` payload fields used by the
agent. -/
structure MessagePart where
  kind : String
  text : String
  file_url : String
deriving DecidableEq, Repr

/-- `MessagePart(kind="text", text=s)`. -/
def textPart (s : String) : MessagePart :=
  ⟨"text", s, ""⟩

/-- `MessagePart(kind="file", file_url=u)`. -/
def filePart (u : String) : MessagePart :=
  ⟨"file", "", u⟩

/-- `models.a2a.A2AMessage`: role, parts, optional task id. -/
structure A2AMessage where
  role : String
  parts : List MessagePart
  taskId : Option String
deriving DecidableEq, Repr

/-- `models.a2a.Artifact`. -/
structure Artifact where
  name : String
  parts : List MessagePart
deriving DecidableEq, Repr

/-- `models.a2a.TaskStatus`. -/
structure TaskStatus where
  state : String
  message : A2AMessage
deriving DecidableEq, Repr

/-- `models.a2a.TaskResult`. -/
structure TaskResult where
  id : String
  contextId : String
  status : TaskStatus
  artifacts : List Artifact
  history : List A2AMessage
deriving DecidableEq, Repr

/-- The chess-rules operations the agent calls on the external
`python-chess` library, abstracted over board type `B` and move type `M`.
`parseSan` returns `none` when `Board.parse_san` raises (unparsable or
illegal notation); `san` returns `none` when `Board.san` raises (which
it does only for some malformed moves, e.g. an empty from-square — it
can succeed and return notation even for a move that is not legal in
the position); `fromUci` returns `none` when `chess.Move.from_uci`
raises. -/
structure RulesEngine (B M : Type) where
  initial : B
  parseSan : B → String → Option M
  push : B → M → B
  legalMoves : B → List M
  isGameOver : B → Bool
  isCheck : B → Bool
  isCheckmate : B → Bool
  san : B → M → Option String
  fen : B → String
  fromUci : String → Option M

/-- `self.boards`: the mutable dict mapping context id to board. -/
abbrev Store (B : Type) := String → Option B

/-- A fresh agent's empty `self.boards` dict. -/
def emptyStore {B : Type} : Store B := fun _ => none

/-- `self.boards[c] = b`. -/
def updateStore {B : Type} (s : Store B) (c : String) (b : B) : Store B :=
  fun c2 => if c2 = c then some b else s c2

/-- `self.boards.get(context_id, chess.Board())` (line 42). -/
def startingBoard {B M : Type} (re : RulesEngine B M) (s : Store B) (c : String) : B :=
  (s c).getD re.initial

/-- `context_id = context_id or str(uuid4())` (lines 38-39): the given id
is kept unless it is absent or empty (Python truthiness), in which case a
fresh uuid string is used. -/
def resolveId (given : Option String) (fresh : String) : String :=
  match given with
  | none => fresh
  | some s => if s = "" then fresh else s

/-- The four UCI commands built at lines 130-135 of the source, in order. -/
def engineCommands (fenStr : String) : List String :=
  ["uci\n", "isready\n", "position fen " ++ fenStr ++ "\n", "go movetime 1000\n"]

/-- `"".join(commands)` (line 137): the whole stdin payload. -/
def engineInput (fenStr : String) : String :=
  (engineCommands fenStr).foldl (fun a b => a ++ b) ""

/-- The process interaction performed by `process.communicate(input)`
(line 137): the UTF-8 bytes of `input` are written to the child's stdin,
which is then closed; stdout is collected until the process exits.
`stdinClosed` records the closing, which `communicate` always performs. -/
structure EngineSession where
  stdinBytes : String
  stdinClosed : Bool
deriving DecidableEq, Repr

/-- The stdin interaction `_get_stockfish_move` has with the spawned
process for a given board: the joined command string for the board's FEN,
with stdin closed afterwards (semantics of `communicate`). -/
def engineSession {B M : Type} (re : RulesEngine B M) (board : B) : EngineSession :=
  { stdinBytes := engineInput (re.fen board), stdinClosed := true }

/-- Outcome of scanning the engine's stdout (lines 140-145):
`found m` — some line starts with `"bestmove"` and its second token
parses as a move, which is returned immediately;
`parseError` — the first `"bestmove"` line has no second token
(`IndexError`) or the token does not parse (`from_uci` raises), so the
exception falls to the `except` clause;
`noLine` — no line starts with `"bestmove"`, the loop completes and the
function returns `None`. -/
inductive ScanResult (M : Type) where
  | found (m : M)
  | parseError
  | noLine
deriving DecidableEq, Repr

/-- The output-scanning loop of `_get_stockfish_move` (lines 140-145). -/
def scanOutput {M : Type} (fromUci : String → Option M) (output : String) : ScanResult M :=
  match (pyLines output).find? (fun l => pyStartsWith l "bestmove") with
  | none => ScanResult.noLine
  | some line =>
    match (pySplit line).get? 1 with
    | none => ScanResult.parseError
    | some tok =>
      match fromUci tok with
      | none => ScanResult.parseError
      | some m => ScanResult.found m

/-- Behavior of the external engine process for one spawn:
`spawnFail` — `create_subprocess_exec` raises `FileNotFoundError`;
`commError` — some other exception is raised while talking to it;
`hangs` — the process starts but never terminates (and `communicate`
is awaited with no timeout, so the coroutine never resumes);
`outputs respond` — the process terminates, answering the stdin payload
with `respond payload` on stdout. -/
inductive EngineBehavior where
  | spawnFail
  | commError
  | hangs
  | outputs (respond : String → String)

/-- `_get_stockfish_move` (lines 120-153).  Outer `none` means the call
never returns (hung process awaited without timeout).  Inner `none` is
Python `None`.  On `FileNotFoundError` and on every other exception the
two `except` clauses both return `legal_moves[0]` if any, else `None`;
a parsed best-move line is returned without any legality check; an exit
with no best-move line returns `None` (line 145). -/
def getStockfishMove {B M : Type} (re : RulesEngine B M) (board : B)
    (eb : EngineBehavior) : Option (Option M) :=
  match eb with
  | EngineBehavior.spawnFail => some ((re.legalMoves board).head?)
  | EngineBehavior.commError => some ((re.legalMoves board).head?)
  | EngineBehavior.hangs => none
  | EngineBehavior.outputs respond =>
    match scanOutput re.fromUci (respond (engineSession re board).stdinBytes) with
    | ScanResult.found m => some (some m)
    | ScanResult.parseError => some ((re.legalMoves board).head?)
    | ScanResult.noLine => some none

/-- The exceptions that can escape `process_messages`:
`noMessage` — `ValueError("No message provided")` (line 47);
`invalidMove t` — `ValueError(f"Invalid move: {t}")` (line 61);
`sanFailed` — `board.san(ai_move)` raised at line 69 (reachable only
when the scanned engine move is not legal in the position). -/
inductive TurnError where
  | noMessage
  | invalidMove (text : String)
  | sanFailed
deriving DecidableEq, Repr

/-- Extraction of the user's move text (lines 44-54): first `"text"`-kind
part of the last message, stripped; `""` when no such part exists. -/
def extractMoveText (msgs : List A2AMessage) : String :=
  match msgs.getLast? with
  | none => ""
  | some m =>
    match m.parts.find? (fun p => p.kind == "text") with
    | none => ""
    | some p => pyStrip p.text

/-- The core of one turn, from the empty-messages check through the
engine consultation (lines 44-72), as a function of the starting board.
The board carried by `crashed`/`blocked`/`done` is the value the shared
`board` object holds at that point — because `self.boards[context_id] =
board` (line 64) stores a reference, later `push` calls are visible in
the store, so this is also the finally-stored board. -/
inductive TurnStep (B : Type) where
  | failEarly (e : TurnError)
  | crashed (b : B)
  | blocked (b : B)
  | done (aiSan : String) (b : B)

/-- Lines 44-72 of `process_messages`: validate input, parse and apply
the user's move, consult the engine, apply its move.  `failEarly` raises
before the store write at line 64; `blocked` hangs inside
`_get_stockfish_move`; `crashed` raises at `board.san`; `done s b` ends
the phase with AI-move notation `s` and final board `b`. -/
def turnStep {B M : Type} (re : RulesEngine B M) (b0 : B) (msgs : List A2AMessage)
    (eb : EngineBehavior) : TurnStep B :=
  if msgs.isEmpty then TurnStep.failEarly TurnError.noMessage
  else
    match re.parseSan b0 (extractMoveText msgs) with
    | none => TurnStep.failEarly (TurnError.invalidMove (extractMoveText msgs))
    | some mv =>
      match getStockfishMove re (re.push b0 mv) eb with
      | none => TurnStep.blocked (re.push b0 mv)
      | some none => TurnStep.done "No legal moves available" (re.push b0 mv)
      | some (some am) =>
        match re.san (re.push b0 mv) am with
        | none => TurnStep.crashed (re.push b0 mv)
        | some s => TurnStep.done s (re.push (re.push b0 mv) am)

/-- `_save_board_image` (lines 155-175): on success the returned url is
`"file://" + os.path.join(tempfile.gettempdir(), f"{context_id}-{task_id}.png")`;
any exception (SVG conversion or file write) is caught and `""` is
returned.  `renderOk` abstracts whether the conversion/write raised. -/
def saveBoardImage (renderOk : Bool) (tmpDir contextId taskId : String) : String :=
  if renderOk then "file://" ++ tmpDir ++ "/" ++ contextId ++ "-" ++ taskId ++ ".png"
  else ""

/-- Lines 74-118: render the board, build the response message, the
artifacts, the history and the `TaskResult`, given the AI-move notation
`aiSan` and the final board `b2`. -/
def buildResult {B M : Type} (re : RulesEngine B M) (msgs : List A2AMessage)
    (ctx task aiSan : String) (b2 : B) (renderOk : Bool) (tmpDir : String) : TaskResult :=
  let boardUrl := saveBoardImage renderOk tmpDir ctx task
  let responseText :=
    "I played " ++ aiSan ++
      (if re.isCheckmate b2 then " - Checkmate!"
       else if re.isCheck b2 then " - Check!" else "")
  let responseMessage : A2AMessage := ⟨"agent", [textPart responseText], some task⟩
  { id := task
    contextId := ctx
    status :=
      { state := if !(re.isGameOver b2) then "input-required" else "completed"
        message := responseMessage }
    artifacts :=
      [⟨"move", [textPart aiSan]⟩, ⟨"board", [filePart boardUrl]⟩]
    history := msgs ++ [responseMessage] }

/-- `process_messages` (lines 28-118).  Result `none` means the call never
returns (hung engine).  Otherwise the result pairs the returned value or
escaped exception with the final `self.boards` state: unchanged when the
raise happens before line 64, updated with the board's final value
otherwise (the dict holds a reference to the mutated board object). -/
def processMessages {B M : Type} (re : RulesEngine B M) (store : Store B)
    (msgs : List A2AMessage) (cid tid : Option String) (freshCtx freshTask : String)
    (eb : EngineBehavior) (renderOk : Bool) (tmpDir : String) :
    Option (Except TurnError TaskResult × Store B) :=
  match turnStep re (startingBoard re store (resolveId cid freshCtx)) msgs eb with
  | TurnStep.failEarly e => some (Except.error e, store)
  | TurnStep.crashed b1 =>
    some (Except.error TurnError.sanFailed, updateStore store (resolveId cid freshCtx) b1)
  | TurnStep.blocked _ => none
  | TurnStep.done s b2 =>
    some (Except.ok (buildResult re msgs (resolveId cid freshCtx) (resolveId tid freshTask) s b2 renderOk tmpDir),
          updateStore store (resolveId cid freshCtx) b2)

/-- `cleanup` (lines 177-179): `self.boards.clear()`. -/
def cleanup {B : Type} (_ : Store B) : Store B := fun _ => none

/-! ### Helper lemmas and a concrete rules-engine instance -/

/-- A non-empty explicit context id survives `resolveId`. -/
theorem resolveId_some_ne {c f : String} (h : c ≠ "") : resolveId (some c) f = c := by
  simp [resolveId, h]

/-- Reading back the context just written. -/
theorem startingBoard_updateStore_self {B M : Type} (re : RulesEngine B M) (st : Store B)
    (c : String) (b : B) : startingBoard re (updateStore st c b) c = b := by
  simp [startingBoard, updateStore]

/-- Inversion of a completed (`done`) turn phase: the messages were
non-empty, the user's move parsed, and the engine either reported no
move (`aiSan` is the sentinel, board unchanged) or produced a move whose
SAN printed, which was then pushed. -/
theorem turnStep_done_inv {B M : Type} (re : RulesEngine B M) (b0 : B)
    (msgs : List A2AMessage) (eb : EngineBehavior) (s : String) (b2 : B)
    (h : turnStep re b0 msgs eb = TurnStep.done s b2) :
    msgs ≠ [] ∧ ∃ mv, re.parseSan b0 (extractMoveText msgs) = some mv ∧
      ((getStockfishMove re (re.push b0 mv) eb = some none ∧
          s = "No legal moves available" ∧ b2 = re.push b0 mv) ∨
       (∃ am, getStockfishMove re (re.push b0 mv) eb = some (some am) ∧
          re.san (re.push b0 mv) am = some s ∧ b2 = re.push (re.push b0 mv) am)) := by
  unfold turnStep at h
  split at h
  · exact absurd h (by simp)
  next hne =>
    refine ⟨by simpa [List.isEmpty_iff] using hne, ?_⟩
    split at h
    · exact absurd h (by simp)
    next mv hp =>
      refine ⟨mv, hp, ?_⟩
      split at h
      · exact absurd h (by simp)
      next hg =>
        injection h with h1 h2
        exact Or.inl ⟨hg, h1.symm, h2.symm⟩
      next am hg =>
        split at h
        · exact absurd h (by simp)
        next s2 hs =>
          injection h with h1 h2
          exact Or.inr ⟨am, hg, hs.trans (congrArg some h1), h2.symm⟩

/-- Inversion of a successful `process_messages` call: the turn phase
completed with some notation and final board, the result is the record
built from them, and the store update writes that final board under the
resolved context id. -/
theorem processMessages_ok_inv {B M : Type} (re : RulesEngine B M) (store : Store B)
    (msgs : List A2AMessage) (cid tid : Option String) (fc ft : String)
    (eb : EngineBehavior) (ro : Bool) (td : String) (r : TaskResult) (store' : Store B)
    (h : processMessages re store msgs cid tid fc ft eb ro td = some (Except.ok r, store')) :
    ∃ s b2, turnStep re (startingBoard re store (resolveId cid fc)) msgs eb = TurnStep.done s b2 ∧
      r = buildResult re msgs (resolveId cid fc) (resolveId tid ft) s b2 ro td ∧
      store' = updateStore store (resolveId cid fc) b2 := by
  unfold processMessages at h
  split at h
  · simp at h
  · simp at h
  · simp at h
  next s b2 heq =>
    simp only [Option.some.injEq, Prod.mk.injEq, Except.ok.injEq] at h
    exact ⟨s, b2, heq, h.1.symm, h.2.symm⟩

/-- A small concrete rules engine over `Nat` boards and `Nat` moves,
used to evaluate the theorems on closed inputs.  Notation `"ok"` parses
to move `1`; every position has the single legal move `5`, whose SAN is
`"mv"`; pushing move `m` onto board `b` gives `10 * b + m`. -/
def toyRE : RulesEngine Nat Nat where
  initial := 0
  parseSan := fun _ s => if s = "ok" then some 1 else none
  push := fun b m => 10 * b + m
  legalMoves := fun _ => [5]
  isGameOver := fun _ => false
  isCheck := fun _ => false
  isCheckmate := fun _ => false
  san := fun _ m => if m = 5 then some "mv" else none
  fen := fun _ => "FEN"
  fromUci := fun s => if s = "uu" then some 9 else none

/-- A message carrying the parsable move text `"ok"`. -/
def msgOk : A2AMessage := ⟨"user", [textPart "ok"], none⟩

/-- A second concrete rules engine with a terminal position: board `0`
parses `"ok"` to move `1`, whose push reaches board `1` with an empty
legal-move set (every non-zero board is game-over).  Following the real
`python-chess` behavior, `san` still returns notation for a move that is
not legal (`Board.san` does not check legality), and `fromUci` parses
the token `"e2e4"`. -/
def toyTerm : RulesEngine Nat Nat where
  initial := 0
  parseSan := fun b s => if b = 0 ∧ s = "ok" then some 1 else none
  push := fun b m => 10 * b + m
  legalMoves := fun b => if b = 0 then [5] else []
  isGameOver := fun b => b != 0
  isCheck := fun _ => false
  isCheckmate := fun _ => false
  san := fun _ m => some (if m = 5 then "mv" else "illegal-san")
  fen := fun _ => "FEN2"
  fromUci := fun s => if s = "e2e4" then some 9 else none

theorem string_append_assoc (a b c : String) : (a ++ b) ++ c = a ++ (b ++ c) :=
  String.ext (by simp [String.data_append, List.append_assoc])

theorem string_empty_append (a : String) : "" ++ a = a := by cases a; rfl

theorem pyEndsWith_newline (a : String) : pyEndsWith (a ++ "\n") "\n" = true := by
  unfold pyEndsWith
  rw [String.data_append]
  unfold List.isSuffixOf
  simp [List.isPrefixOf]

/-! ### Claim theorems -/

/-- Claim C8: for every position, the payload written to the engine
process's stdin is exactly the four newline-terminated commands, in
order: `uci` (identify), `isready` (readiness check), `position fen
<FEN>` (position set, carrying the position's FEN), `go movetime 1000`
(search with the time budget); afterwards stdin is closed. -/
theorem C8_engine_commands {B M : Type} (re : RulesEngine B M) (board : B) :
    (engineSession re board).stdinBytes = engineInput (re.fen board) ∧
    (engineSession re board).stdinClosed = true ∧
    engineCommands (re.fen board) =
      ["uci\n", "isready\n", "position fen " ++ re.fen board ++ "\n", "go movetime 1000\n"] ∧
    (engineCommands (re.fen board)).length = 4 ∧
    pyEndsWith "uci\n" "\n" = true ∧
    pyEndsWith "isready\n" "\n" = true ∧
    pyEndsWith ("position fen " ++ re.fen board ++ "\n") "\n" = true ∧
    pyEndsWith "go movetime 1000\n" "\n" = true ∧
    engineInput (re.fen board) =
      "uci\n" ++ "isready\n" ++ ("position fen " ++ re.fen board ++ "\n") ++ "go movetime 1000\n" := by
  refine ⟨rfl, rfl, rfl, rfl, rfl, rfl, ?_, rfl, ?_⟩
  · exact pyEndsWith_newline _
  · show (((("" ++ "uci\n") ++ "isready\n") ++ ("position fen " ++ (re.fen board ++ "\n"))) ++ "go movetime 1000\n") = _
    simp only [string_append_assoc, string_empty_append]

/-- Claim C10: after `cleanup` the session store is empty, so a
subsequent `process_messages` call for any context id starts from the
rules engine's initial position, and behaves exactly as on an empty
store. -/
theorem C10_cleanup_resets {B M : Type} (re : RulesEngine B M) (store : Store B) (c : String)
    (msgs : List A2AMessage) (cid tid : Option String) (fc ft : String)
    (eb : EngineBehavior) (ro : Bool) (td : String) :
    cleanup store c = none ∧
    startingBoard re (cleanup store) c = re.initial ∧
    processMessages re (cleanup store) msgs cid tid fc ft eb ro td =
      processMessages re emptyStore msgs cid tid fc ft eb ro td :=
  ⟨rfl, rfl, rfl⟩

/-- Claim C2 (code bug): with a hung engine process the call never
returns — `process.communicate` is awaited without any timeout, so
`_get_stockfish_move` (and with it the whole `process_messages` turn,
here on a concrete input) has no result instead of falling back to the
first legal move. -/
theorem C2_hung_engine_blocks :
    getStockfishMove toyRE 1 EngineBehavior.hangs = none ∧
    processMessages toyRE emptyStore [msgOk] (some "c1") (some "t1") "f" "g"
      EngineBehavior.hangs true "/tmp" = none :=
  ⟨rfl, rfl⟩

/-- Claim C1 counterexample: a position whose legal-move set is the
non-empty `[5]`, against an engine process that runs but produces no
parseable best-move line (empty stdout), yields `None` — not a move
drawn from the legal moves, refuting `None` exactly on an empty
legal-move set. -/
theorem C1_counterexample :
    toyRE.legalMoves 1 ≠ [] ∧
    scanOutput toyRE.fromUci "" = ScanResult.noLine ∧
    getStockfishMove toyRE 1 (EngineBehavior.outputs (fun _ => "")) = some none := by
  exact ⟨by decide, rfl, rfl⟩

/-- Claim C1 (amended): when the engine process cannot be started or
raises, `_get_stockfish_move` returns the first legal move whenever the
legal-move set is non-empty and `None` exactly when it is empty; but
when the process runs and its output contains no best-move line, the
function returns `None` regardless of the legal moves. -/
theorem C1_amended_fallback {B M : Type} (re : RulesEngine B M) (board : B) :
    (∀ eb, eb = EngineBehavior.spawnFail ∨ eb = EngineBehavior.commError →
      getStockfishMove re board eb = some ((re.legalMoves board).head?) ∧
      (re.legalMoves board = [] → getStockfishMove re board eb = some none) ∧
      (re.legalMoves board ≠ [] →
        ∃ mv, getStockfishMove re board eb = some (some mv) ∧ mv ∈ re.legalMoves board)) ∧
    (∀ respond : String → String,
      scanOutput re.fromUci (respond (engineSession re board).stdinBytes) = ScanResult.noLine →
      getStockfishMove re board (EngineBehavior.outputs respond) = some none) := by
  constructor
  · rintro eb (rfl | rfl) <;>
    · refine ⟨rfl, fun he => by simp [getStockfishMove, he], fun hne => ?_⟩
      cases hl : re.legalMoves board with
      | nil => exact absurd hl hne
      | cons x xs =>
        exact ⟨x, by simp [getStockfishMove, hl], by simp [hl]⟩
  · intro respond hscan
    simp [getStockfishMove, hscan]

/-- Witness for C1 (amended): the fallback branch on a spawn failure
returns the first (and only) legal move of the toy engine. -/
theorem C1_amended_fallback_witness :
    getStockfishMove toyRE 1 EngineBehavior.spawnFail = some (some 5) ∧
    (5 : Nat) ∈ toyRE.legalMoves 1 := by
  obtain ⟨h1, -, h3⟩ := (C1_amended_fallback toyRE 1).1 EngineBehavior.spawnFail (Or.inl rfl)
  obtain ⟨mv, hmv, hmem⟩ := h3 (by decide)
  have e : (some (some mv) : Option (Option Nat)) = some (some 5) := hmv.symm.trans (by rfl)
  injection e with e1
  injection e1 with e2
  subst e2
  exact ⟨h1, hmem⟩

/-- Claim C3 counterexample: a call whose latest message has no
text-kind part (a single file part) fails with the `IllegalMove`-class
error `ValueError("Invalid move: ")` — not the `InvalidInput`-class
error `ValueError("No message provided")` the claim requires for a
missing text part. -/
theorem C3_counterexample :
    processMessages toyRE emptyStore [⟨"user", [filePart "u"], none⟩] none none "f" "g"
        EngineBehavior.spawnFail true "/tmp" =
      some (Except.error (TurnError.invalidMove ""), emptyStore) ∧
    TurnError.invalidMove "" ≠ TurnError.noMessage := by
  exact ⟨rfl, by decide⟩

/-- Claim C3 (amended): an empty messages list fails with the
`InvalidInput`-class error (`No message provided`) and leaves the store
untouched; a latest message with no text-kind part falls through with an
empty move text and fails with the `IllegalMove`-class error
(`Invalid move: `) carrying the empty string, also leaving the store
untouched — the `InvalidInput` error is raised only for the
empty-messages case. -/
theorem C3_amended_input_errors {B M : Type} (re : RulesEngine B M) (store : Store B)
    (msgs : List A2AMessage) (cid tid : Option String) (fc ft : String)
    (eb : EngineBehavior) (ro : Bool) (td : String) :
    (msgs = [] →
      processMessages re store msgs cid tid fc ft eb ro td =
        some (Except.error TurnError.noMessage, store)) ∧
    (∀ last, msgs.getLast? = some last →
      last.parts.find? (fun p => p.kind == "text") = none →
      re.parseSan (startingBoard re store (resolveId cid fc)) "" = none →
      processMessages re store msgs cid tid fc ft eb ro td =
        some (Except.error (TurnError.invalidMove ""), store)) := by
  constructor
  · intro h; subst h; rfl
  · intro last hlast hfind hparse
    have hie : msgs.isEmpty = false := by
      cases msgs with
      | nil => simp at hlast
      | cons a as => rfl
    have hext : extractMoveText msgs = "" := by
      unfold extractMoveText
      rw [hlast]
      split
      · rfl
      next p hp2 =>
        injection hp2 with hp3
        subst hp3
        split
        · rfl
        next q hq => rw [hfind] at hq; exact Option.noConfusion hq
    simp only [processMessages, turnStep, hie, Bool.false_eq_true, if_false, hext, hparse]

/-- Claim C4: a move text that does not parse (or is illegal) in the
context's current position makes `process_messages` raise the
`IllegalMove` error carrying the offending text, and the returned store
is exactly the input store, so every context's mapping is unchanged. -/
theorem C4_illegal_move_no_mutation {B M : Type} (re : RulesEngine B M) (store : Store B)
    (msgs : List A2AMessage) (cid tid : Option String) (fc ft : String)
    (eb : EngineBehavior) (ro : Bool) (td : String)
    (hne : msgs ≠ [])
    (hbad : re.parseSan (startingBoard re store (resolveId cid fc)) (extractMoveText msgs) = none) :
    processMessages re store msgs cid tid fc ft eb ro td =
      some (Except.error (TurnError.invalidMove (extractMoveText msgs)), store) := by
  have hie : msgs.isEmpty = false := by
    cases msgs with
    | nil => exact absurd rfl hne
    | cons a as => rfl
  simp only [processMessages, turnStep, hie, Bool.false_eq_true, if_false, hbad]

/-- Claim C5: after a successful call on context `c`, the store maps `c`
to the final board of that turn (which, when the engine produced a move,
includes the engine's counter-move pushed after the store write, thanks
to the shared board reference), and a second call with the same `c`
starts exactly from that board. -/
theorem C5_sequential_consistency {B M : Type} (re : RulesEngine B M) (store : Store B)
    (msgs1 : List A2AMessage) (c : String) (tid : Option String) (fc ft : String)
    (eb : EngineBehavior) (ro : Bool) (td : String) (r1 : TaskResult) (store1 : Store B)
    (hc : c ≠ "")
    (h1 : processMessages re store msgs1 (some c) tid fc ft eb ro td = some (Except.ok r1, store1)) :
    ∃ s b2,
      turnStep re (startingBoard re store c) msgs1 eb = TurnStep.done s b2 ∧
      store1 c = some b2 ∧
      (∀ fc2, startingBoard re store1 (resolveId (some c) fc2) = b2) ∧
      (∀ mv am, re.parseSan (startingBoard re store c) (extractMoveText msgs1) = some mv →
        getStockfishMove re (re.push (startingBoard re store c) mv) eb = some (some am) →
        b2 = re.push (re.push (startingBoard re store c) mv) am) := by
  obtain ⟨s, b2, ht, hr, hs⟩ :=
    processMessages_ok_inv re store msgs1 (some c) tid fc ft eb ro td r1 store1 h1
  rw [resolveId_some_ne hc] at ht hs
  refine ⟨s, b2, ht, ?_, ?_, ?_⟩
  · rw [hs]; simp [updateStore]
  · intro fc2
    rw [resolveId_some_ne hc, hs]
    exact startingBoard_updateStore_self re store c b2
  · intro mv am hp hg
    obtain ⟨-, mv', hp', hd⟩ := turnStep_done_inv re _ msgs1 eb s b2 ht
    have hmv : mv = mv' := Option.some.inj (hp.symm.trans hp')
    subst hmv
    cases hd with
    | inl hl =>
      have := hg.symm.trans hl.1
      simp at this
    | inr hr2 =>
      obtain ⟨am', hg', hsn, hb⟩ := hr2
      have ham : am = am' := by
        have := hg.symm.trans hg'
        simpa using this
      subst ham
      exact hb

/-- Claim C6 counterexample: against the terminal-position rules engine
(whose `san` returns notation even for an illegal move, as
`python-chess`'s `Board.san` does), an engine process replying
`bestmove e2e4` at a position with no legal moves after the human's move
yields a successful turn whose move artifact carries that move's
notation — not the `"No legal moves available"` sentinel the claim
requires: the unvalidated engine move is pushed onto the terminal
board. -/
theorem C6_counterexample :
    toyTerm.legalMoves (toyTerm.push 0 1) = [] ∧
    processMessages toyTerm emptyStore [msgOk] (some "c6") none "f" "g"
        (EngineBehavior.outputs (fun _ => "bestmove e2e4")) true "/tmp" =
      some (Except.ok (buildResult toyTerm [msgOk] "c6" "g" "illegal-san" 19 true "/tmp"),
        updateStore emptyStore "c6" 19) ∧
    (buildResult toyTerm [msgOk] "c6" "g" "illegal-san" (19 : Nat) true "/tmp").artifacts.head? =
      some ⟨"move", [textPart "illegal-san"]⟩ ∧
    "illegal-san" ≠ "No legal moves available" := by
  exact ⟨rfl, rfl, rfl, by decide⟩

/-- Claim C6 (amended): on every successful turn the result's status
state is `"completed"` exactly when the rules engine reports the final
board as game-over, and otherwise `"input-required"`; when the position
after the human's move has no legal moves AND the engine consultation
returned no move (which is the case on spawn failure, on an engine
error, and on output with no parseable best-move line), the turn
completes with state `"completed"` and a move artifact carrying the
sentinel `"No legal moves available"`.  If instead the engine's output
supplies a parseable move token, the move is pushed without any
legality check and its notation fills the artifact.  Hypothesis `hgo`
records the chess fact that a position with no legal moves is
game-over. -/
theorem C6_amended_completed_iff_game_over {B M : Type} (re : RulesEngine B M) (store : Store B)
    (msgs : List A2AMessage) (cid tid : Option String) (fc ft : String)
    (eb : EngineBehavior) (ro : Bool) (td : String) (r : TaskResult) (store' : Store B)
    (hgo : ∀ b, re.legalMoves b = [] → re.isGameOver b = true)
    (h : processMessages re store msgs cid tid fc ft eb ro td = some (Except.ok r, store')) :
    ∃ mv s b2,
      re.parseSan (startingBoard re store (resolveId cid fc)) (extractMoveText msgs) = some mv ∧
      turnStep re (startingBoard re store (resolveId cid fc)) msgs eb = TurnStep.done s b2 ∧
      (r.status.state = "completed" ↔ re.isGameOver b2 = true) ∧
      (getStockfishMove re (re.push (startingBoard re store (resolveId cid fc)) mv) eb = some none →
        re.legalMoves (re.push (startingBoard re store (resolveId cid fc)) mv) = [] →
        s = "No legal moves available" ∧
        b2 = re.push (startingBoard re store (resolveId cid fc)) mv ∧
        r.status.state = "completed" ∧
        r.artifacts.head? = some ⟨"move", [textPart "No legal moves available"]⟩) := by
  obtain ⟨s, b2, ht, hr, -⟩ := processMessages_ok_inv re store msgs cid tid fc ft eb ro td r store' h
  obtain ⟨-, mv, hp, hd⟩ := turnStep_done_inv re _ msgs eb s b2 ht
  refine ⟨mv, s, b2, hp, ht, ?_, ?_⟩
  · subst hr
    cases hgame : re.isGameOver b2 <;> simp [buildResult, hgame]
  · intro hnone hempty
    cases hd with
    | inl hl =>
      obtain ⟨hg, hsn, hb⟩ := hl
      subst hr
      have hover : re.isGameOver b2 = true := by rw [hb]; exact hgo _ hempty
      exact ⟨hsn, hb, by simp [buildResult, hover], by simp [buildResult, hsn]⟩
    | inr hr2 =>
      obtain ⟨am, hg, hsn, hb⟩ := hr2
      have := hnone.symm.trans hg
      simp at this

/-- Claim C7: a turn in which rendering/storing the board image fails
(`renderOk = false`) still returns a normal `TaskResult`: the board
artifact carries an empty image reference and every other field (id,
contextId, status, history — and the move artifact) is assembled exactly
as on the rendering-success path; the store update is identical too. -/
theorem C7_render_failure_best_effort {B M : Type} (re : RulesEngine B M) (store : Store B)
    (msgs : List A2AMessage) (cid tid : Option String) (fc ft : String)
    (eb : EngineBehavior) (td : String) (s : String) (b2 : B)
    (h : turnStep re (startingBoard re store (resolveId cid fc)) msgs eb = TurnStep.done s b2) :
    processMessages re store msgs cid tid fc ft eb false td =
      some (Except.ok (buildResult re msgs (resolveId cid fc) (resolveId tid ft) s b2 false td),
        updateStore store (resolveId cid fc) b2) ∧
    (buildResult re msgs (resolveId cid fc) (resolveId tid ft) s b2 false td).artifacts =
      [⟨"move", [textPart s]⟩, ⟨"board", [filePart ""]⟩] ∧
    (buildResult re msgs (resolveId cid fc) (resolveId tid ft) s b2 false td).id =
      (buildResult re msgs (resolveId cid fc) (resolveId tid ft) s b2 true td).id ∧
    (buildResult re msgs (resolveId cid fc) (resolveId tid ft) s b2 false td).contextId =
      (buildResult re msgs (resolveId cid fc) (resolveId tid ft) s b2 true td).contextId ∧
    (buildResult re msgs (resolveId cid fc) (resolveId tid ft) s b2 false td).status =
      (buildResult re msgs (resolveId cid fc) (resolveId tid ft) s b2 true td).status ∧
    (buildResult re msgs (resolveId cid fc) (resolveId tid ft) s b2 false td).history =
      (buildResult re msgs (resolveId cid fc) (resolveId tid ft) s b2 true td).history := by
  refine ⟨?_, by simp [buildResult, saveBoardImage], rfl, rfl, rfl, rfl⟩
  unfold processMessages
  rw [h]

/-- Claim C9: every successful turn returns a history equal to the input
message sequence with exactly one new agent response message appended,
and that same message is the one carried in the result's status. -/
theorem C9_history_append {B M : Type} (re : RulesEngine B M) (store : Store B)
    (msgs : List A2AMessage) (cid tid : Option String) (fc ft : String)
    (eb : EngineBehavior) (ro : Bool) (td : String) (r : TaskResult) (store' : Store B)
    (h : processMessages re store msgs cid tid fc ft eb ro td = some (Except.ok r, store')) :
    ∃ resp : A2AMessage, r.history = msgs ++ [resp] ∧ r.status.message = resp ∧
      resp.role = "agent" := by
  obtain ⟨s, b2, -, hr, -⟩ := processMessages_ok_inv re store msgs cid tid fc ft eb ro td r store' h
  subst hr
  exact ⟨_, rfl, rfl, rfl⟩

/-- A message carrying the unparsable move text `"zz"`. -/
def msgZz : A2AMessage := ⟨"user", [textPart "zz"], none⟩

/-- Witness for C3 (amended): both error paths realized on concrete
calls against the toy rules engine. -/
theorem C3_amended_input_errors_witness :
    processMessages toyRE emptyStore [] none none "f" "g" EngineBehavior.spawnFail true "/tmp" =
      some (Except.error TurnError.noMessage, emptyStore) ∧
    processMessages toyRE emptyStore [⟨"user", [filePart "w"], none⟩] none none "f" "g"
        EngineBehavior.spawnFail true "/tmp" =
      some (Except.error (TurnError.invalidMove ""), emptyStore) := by
  refine ⟨(C3_amended_input_errors toyRE emptyStore [] none none "f" "g"
      EngineBehavior.spawnFail true "/tmp").1 rfl, ?_⟩
  exact (C3_amended_input_errors toyRE emptyStore [⟨"user", [filePart "w"], none⟩] none none "f" "g"
      EngineBehavior.spawnFail true "/tmp").2 ⟨"user", [filePart "w"], none⟩ rfl rfl (by decide)

/-- Witness for C4: the unparsable move `"zz"` on a fresh context yields
the `IllegalMove` error carrying `"zz"` and an unchanged (empty) store. -/
theorem C4_illegal_move_no_mutation_witness :
    processMessages toyRE emptyStore [msgZz] none none "f" "g" EngineBehavior.spawnFail true "/tmp" =
      some (Except.error (TurnError.invalidMove "zz"), emptyStore) := by
  have h := C4_illegal_move_no_mutation toyRE emptyStore [msgZz] none none "f" "g"
    EngineBehavior.spawnFail true "/tmp" (by simp) (by decide)
  exact h

/-- Witness for C5: a concrete successful first call on context `"c1"`
stores the final board `15` (user move then engine fallback move), and a
second call's starting board for `"c1"` is exactly `15`. -/
theorem C5_sequential_consistency_witness :
    turnStep toyRE 0 [msgOk] EngineBehavior.spawnFail = TurnStep.done "mv" 15 ∧
    updateStore emptyStore "c1" (15 : Nat) "c1" = some 15 ∧
    startingBoard toyRE (updateStore emptyStore "c1" 15) (resolveId (some "c1") "zz") = 15 := by
  obtain ⟨s, b2, ht, hst, hsb, -⟩ :=
    C5_sequential_consistency toyRE emptyStore [msgOk] "c1" none "f" "g"
      EngineBehavior.spawnFail true "/tmp"
      (buildResult toyRE [msgOk] "c1" "g" "mv" 15 true "/tmp")
      (updateStore emptyStore "c1" 15) (by decide) rfl
  have e : TurnStep.done s b2 = TurnStep.done "mv" (15 : Nat) := ht.symm.trans (by rfl)
  injection e with e1 e2
  subst e1
  subst e2
  exact ⟨ht, hst, hsb "zz"⟩

/-- Witness for C6 (amended): a concrete turn against the
terminal-position rules engine with a spawn failure — the position after
the human's move has no legal moves, the engine consultation returns no
move, and the turn completes with state `"completed"` and the sentinel
move artifact, exercising the no-legal-moves clause non-vacuously. -/
theorem C6_amended_completed_iff_game_over_witness :
    toyTerm.legalMoves (toyTerm.push 0 1) = [] ∧
    (buildResult toyTerm [msgOk] "c6w" "g" "No legal moves available" (1 : Nat) true "/tmp").status.state =
      "completed" ∧
    (buildResult toyTerm [msgOk] "c6w" "g" "No legal moves available" (1 : Nat) true "/tmp").artifacts.head? =
      some ⟨"move", [textPart "No legal moves available"]⟩ := by
  obtain ⟨mv, s, b2, hp, ht, hiff, hcl⟩ :=
    C6_amended_completed_iff_game_over toyTerm emptyStore [msgOk] (some "c6w") none "f" "g"
      EngineBehavior.spawnFail true "/tmp"
      (buildResult toyTerm [msgOk] "c6w" "g" "No legal moves available" 1 true "/tmp")
      (updateStore emptyStore "c6w" 1)
      (by
        intro b hb
        by_cases h0 : b = 0
        · subst h0; simp [toyTerm] at hb
        · simp [toyTerm, h0]) rfl
  have emv : mv = 1 := Option.some.inj (hp.symm.trans (by rfl))
  subst emv
  obtain ⟨-, -, hstate, hart⟩ := hcl (by rfl) (by rfl)
  exact ⟨rfl, hstate, hart⟩

/-- Witness for C7: a concrete turn with failing rendering still
succeeds, and its artifacts carry an empty board-image reference. -/
theorem C7_render_failure_best_effort_witness :
    processMessages toyRE emptyStore [msgOk] (some "c1") (some "t1") "f" "g"
        EngineBehavior.spawnFail false "/tmp" =
      some (Except.ok (buildResult toyRE [msgOk] "c1" "t1" "mv" 15 false "/tmp"),
        updateStore emptyStore "c1" 15) ∧
    (buildResult toyRE [msgOk] "c1" "t1" "mv" (15 : Nat) false "/tmp").artifacts =
      [⟨"move", [textPart "mv"]⟩, ⟨"board", [filePart ""]⟩] := by
  obtain ⟨h1, h2, -, -, -, -⟩ :=
    C7_render_failure_best_effort toyRE emptyStore [msgOk] (some "c1") (some "t1") "f" "g"
      EngineBehavior.spawnFail "/tmp" "mv" 15 (by rfl)
  exact ⟨h1, h2⟩

/-- Witness for C9: a concrete successful turn's history is the single
input message followed by the status message, whose role is `"agent"`. -/
theorem C9_history_append_witness :
    (buildResult toyRE [msgOk] "c1" "g" "mv" (15 : Nat) true "/tmp").history =
      [msgOk] ++ [(buildResult toyRE [msgOk] "c1" "g" "mv" (15 : Nat) true "/tmp").status.message] ∧
    (buildResult toyRE [msgOk] "c1" "g" "mv" (15 : Nat) true "/tmp").status.message.role = "agent" := by
  obtain ⟨resp, hh, hm, hrole⟩ :=
    C9_history_append toyRE emptyStore [msgOk] (some "c1") none "f" "g"
      EngineBehavior.spawnFail true "/tmp"
      (buildResult toyRE [msgOk] "c1" "g" "mv" 15 true "/tmp")
      (updateStore emptyStore "c1" 15) rfl
  refine ⟨?_, ?_⟩
  · rw [hm]; exact hh
  · rw [hm]; exact hrole
